import Mathlib

/-!
Verification of `lambda_function.py`, an S3-triggered FFmpeg DASH transcoder.

Shallow embedding: the local filesystem is an explicit state (sets of file
paths and directory paths); the three effectful collaborators (S3 download,
the ffmpeg subprocess, S3 upload) are oracles supplied as an `Effects`
record; side-effecting calls are additionally recorded in a trace of `Ev`
events.  Machine strings are Lean `String`s (Lean 4.14 strings are lists of
characters, matching Python's str at the ASCII level used here).
-/

/-- A filesystem state: the set of existing regular files and the set of
existing directories, each as a list of absolute paths. -/
structure FS where
  files : List String
  dirs : List String
deriving Repr, DecidableEq

def fileExists (p : String) (fs : FS) : Bool := fs.files.contains p

def dirExists (p : String) (fs : FS) : Bool := fs.dirs.contains p

/-- Character-list based prefix test (kernel-reducible, unlike the
byte-position based `String.isPrefixOf` of core). -/
def strIsPfx (p s : String) : Bool := List.isPrefixOf p.data s.data

/-- Character-list based drop. -/
def strDrop (s : String) (n : Nat) : String := String.mk (s.data.drop n)

/-- Character count of a string. -/
def strLen (s : String) : Nat := s.data.length

/-- Models `os.remove p` (on a state where removal succeeds). -/
def removeFile (p : String) (fs : FS) : FS :=
  { fs with files := fs.files.filter (fun f => f != p) }

/-- Models `shutil.rmtree d`: removes the directory, every file under it and every
subdirectory under it. -/
def removeTree (d : String) (fs : FS) : FS :=
  { files := fs.files.filter (fun f => !(strIsPfx (d ++ "/") f)),
    dirs := fs.dirs.filter (fun x => !(x == d) && !(strIsPfx (d ++ "/") x)) }

/-- Models `output_dir.mkdir(parents=True, exist_ok=True)`; the `os.chmod` of the
source only alters permission bits, which this model does not track. -/
def mkdirP (d : String) (fs : FS) : FS :=
  if fs.dirs.contains d then fs else { fs with dirs := fs.dirs ++ [d] }

def createFile (p : String) (fs : FS) : FS :=
  if fs.files.contains p then fs else { fs with files := fs.files ++ [p] }

/-- The name (relative to `od`) of every regular file that is a direct child
of directory `od`: models `[f.name for f in od.iterdir() if f.is_file()]`. -/
def listDirChildren (od : String) (fs : FS) : List String :=
  (fs.files.filter (fun f => strIsPfx (od ++ "/") f)).filterMap
    (fun f =>
      let n := strDrop f (strLen od + 1)
      if n.data.contains '/' then none else some n)

/-- Value of one hexadecimal digit, as in CPython's `_hextobyte` table. -/
def hexVal (c : Char) : Option Nat :=
  if '0' ≤ c ∧ c ≤ '9' then some (c.toNat - '0'.toNat)
  else if 'a' ≤ c ∧ c ≤ 'f' then some (c.toNat - 'a'.toNat + 10)
  else if 'A' ≤ c ∧ c ≤ 'F' then some (c.toNat - 'A'.toNat + 10)
  else none

/-- Models `urllib.parse.unquote_plus` at the single-byte level: `+` becomes a
space, `%hh` with two hex digits becomes the character with that code, an
invalid escape is passed through unchanged.  (CPython assembles consecutive
escaped bytes into UTF-8 sequences; for the ASCII range exercised by the
handler's key parsing the two agree.) -/
def unquotePlusChars : List Char → List Char
  | [] => []
  | '+' :: rest => ' ' :: unquotePlusChars rest
  | '%' :: a :: b :: rest =>
    match hexVal a, hexVal b with
    | some x, some y => Char.ofNat (16 * x + y) :: unquotePlusChars rest
    | _, _ => '%' :: unquotePlusChars (a :: b :: rest)
  | c :: rest => c :: unquotePlusChars rest

def unquote_plus (s : String) : String := String.mk (unquotePlusChars s.data)

/-- Splits a character list on `/` (the groups between separators,
empty groups included), mirroring `str.split("/")`. -/
def splitOnSlash : List Char → List (List Char)
  | [] => [[]]
  | '/' :: rest => [] :: splitOnSlash rest
  | c :: rest =>
    match splitOnSlash rest with
    | [] => [[c]]
    | g :: gs => (c :: g) :: gs

/-- Models `PurePosixPath(p).name`: the last nonempty `/`-separated component. -/
def pathName (p : String) : String :=
  String.mk (((splitOnSlash p.data).filter (fun s => !s.isEmpty)).getLastD [])

/-- Shared core of `PurePath.suffix` and `PurePath.stem`: CPython takes the
last `.` of the name at index `i` and splits there when `0 < i < len-1`,
otherwise the suffix is empty and the stem is the whole name. -/
def splitSuffix (name : String) : String × String :=
  let cs := name.data
  let afterRev := cs.reverse.takeWhile (fun c => c != '.')
  if afterRev.length = cs.length then ("", name)
  else
    let i := cs.length - 1 - afterRev.length
    if 0 < i ∧ i + 1 < cs.length then
      (String.mk (cs.drop i), String.mk (cs.take i))
    else ("", name)

/-- Models `Path(p).suffix`. -/
def pathSuffix (p : String) : String := (splitSuffix (pathName p)).1

/-- Models `Path(p).stem`. -/
def pathStem (p : String) : String := (splitSuffix (pathName p)).2

/-- Models `str.lower()` (ASCII level). -/
def strLower (s : String) : String := String.mk (s.data.map Char.toLower)

/-- The set `ALLOWED_EXTENSIONS` of the source. -/
def ALLOWED_EXTENSIONS : List String := [".mp4", ".mkv", ".mov", ".avi", ".webm"]

/-- The text the f-string `f"{ALLOWED_EXTENSIONS}"` produces for the set
above.  (CPython renders set elements in hash order, which is unspecified;
the model fixes the source insertion order.) -/
def allowedSetRepr : String :=
  "\x7b\x27.mp4\x27, \x27.mkv\x27, \x27.mov\x27, \x27.avi\x27, \x27.webm\x27\x7d"

/-- The catalog `RESOLUTIONS`: the fixed (width, height) catalog. -/
def RESOLUTIONS : List (Nat × Nat) := [(1280, 720), (854, 480), (640, 360), (426, 240)]

/-- The table `AUDIO_BITRATES`: audio bitrate by resolution height. -/
def AUDIO_BITRATES : List (Nat × String) :=
  [(720, "128k"), (480, "96k"), (360, "64k"), (240, "48k")]

/-- Models `AUDIO_BITRATES.get(height, "64k")`. -/
def audioBitrateFor (h : Nat) : String := (AUDIO_BITRATES.lookup h).getD "64k"

/-- The video filter string built for index `idx` and pair `(w, h)`. -/
def vFilterStr (idx w h : Nat) : String :=
  "[0:v]scale=" ++ toString w ++ "x" ++ toString h ++
  ":force_original_aspect_ratio=decrease," ++
  "pad=width=ceil(iw/2)*2:height=ceil(ih/2)*2:x=(ow-iw)/2:y=(oh-ih)/2," ++
  "format=yuv420p,setsar=1[v" ++ toString idx ++ "]"

/-- The audio filter string built for index `idx`. -/
def aFilterStr (idx : Nat) : String :=
  "[0:a]aresample=async=1[a" ++ toString idx ++ "]"

def vLabel (idx : Nat) : String := "[v" ++ toString idx ++ "]"

def aLabel (idx : Nat) : String := "[a" ++ toString idx ++ "]"

/-- The `filters` list accumulated by the loop, starting at index `k`:
per index first the video filter, then the audio filter. -/
def dashFiltersAux : Nat → List (Nat × Nat) → List String
  | _, [] => []
  | k, (w, h) :: rest => vFilterStr k w h :: aFilterStr k :: dashFiltersAux (k + 1) rest

def dashFilters (resolutions : List (Nat × Nat)) : List String :=
  dashFiltersAux 0 resolutions

/-- The `stream_mappings` list accumulated by the loop, starting at `k`. -/
def streamMappingsAux : Nat → List (Nat × Nat) → List String
  | _, [] => []
  | k, _ :: rest =>
    "-map" :: vLabel k :: "-map" :: aLabel k :: streamMappingsAux (k + 1) rest

def streamMappings (resolutions : List (Nat × Nat)) : List String :=
  streamMappingsAux 0 resolutions

/-- The per-stream `output_params` block for index `idx`, pair `(w, h)`. -/
def outputParamsFor (idx w h : Nat) : List String :=
  ["-c:v:" ++ toString idx, "libx264",
   "-crf:" ++ toString idx, "23",
   "-preset:" ++ toString idx, "fast",
   "-b:v:" ++ toString idx, toString w ++ "k",
   "-maxrate:" ++ toString idx, toString w ++ "k",
   "-bufsize:" ++ toString idx, toString (w * 2) ++ "k",
   "-c:a:" ++ toString idx, "aac",
   "-b:a:" ++ toString idx, audioBitrateFor h]

def outputParamsAux : Nat → List (Nat × Nat) → List String
  | _, [] => []
  | k, (w, h) :: rest => outputParamsFor k w h ++ outputParamsAux (k + 1) rest

def outputParams (resolutions : List (Nat × Nat)) : List String :=
  outputParamsAux 0 resolutions

def ffmpeg_path : String := "/var/task/bin/ffmpeg"

/-- The fixed DASH muxer flags of the command. -/
def dashFixedFlags : List String :=
  ["-f", "dash",
   "-seg_duration", "6",
   "-use_timeline", "1",
   "-use_template", "1",
   "-init_seg_name", "init_$RepresentationID$.m4s",
   "-media_seg_name", "segment_$RepresentationID$_$Number$.m4s",
   "-adaptation_sets", "id=0,streams=v id=1,streams=a"]

/-- The full `cmd` list built in `run_ffmpeg_dash`. -/
def ffmpegCmd (input_path output_dir : String) (resolutions : List (Nat × Nat)) :
    List String :=
  [ffmpeg_path, "-i", input_path, "-y",
   "-filter_complex", String.intercalate ";" (dashFilters resolutions)]
  ++ streamMappings resolutions ++ dashFixedFlags ++ outputParams resolutions
  ++ [output_dir ++ "/manifest.mpd"]

/-- Outcome of one effectful collaborator call. -/
inductive Outcome where
  | ok : Outcome
  | err (msg : String) : Outcome
deriving Repr, DecidableEq

/-- Oracle for the one `subprocess.run` call: its exit code, its stderr
text, and the names of the files it leaves in the output directory. -/
structure TranscodeResult where
  returncode : Int
  stderr : String
  produced : List String
deriving Repr, DecidableEq

/-- Oracles for the three effectful collaborators of one invocation:
`s3.download_file`, the ffmpeg subprocess, and `s3.upload_file` (the
latter's outcome keyed by the uploaded file's name). -/
structure Effects where
  download : Outcome
  transcode : TranscodeResult
  upload : String → Outcome

/-- An effectful call, recorded in the invocation's trace. -/
inductive Ev where
  | downloadCall (bucket key dest : String)
  | subprocessCall (cmd : List String)
  | uploadCall (src dstBucket dstKey contentType : String)
deriving Repr, DecidableEq

/-- Models `run_ffmpeg_dash(input_path, output_dir, resolutions)`: ensures the
output directory exists, builds the command, raises `ValueError` for an
empty configuration before any process is spawned, then runs the
subprocess; non-zero exit raises `RuntimeError` carrying stderr, success
returns the names of the regular files in the output directory. -/
def run_ffmpeg_dash (input_path output_dir : String) (resolutions : List (Nat × Nat))
    (fs : FS) (eff : Effects) : Except String (List String) × FS × List Ev :=
  let fs := mkdirP output_dir fs
  let filters := dashFilters resolutions
  let stream_mappings := streamMappings resolutions
  if filters.isEmpty || stream_mappings.isEmpty then
    (Except.error "No valid FFmpeg filter chains or stream mappings generated.", fs, [])
  else
    let cmd := ffmpegCmd input_path output_dir resolutions
    if eff.transcode.returncode ≠ 0 then
      (Except.error ("FFmpeg failed with error: " ++ eff.transcode.stderr), fs,
       [Ev.subprocessCall cmd])
    else
      let fs := eff.transcode.produced.foldl
        (fun acc name => createFile (output_dir ++ "/" ++ name) acc) fs
      (Except.ok (listDirChildren output_dir fs), fs, [Ev.subprocessCall cmd])

/-- The success body of the 200 response (`output_prefix_uri` models the
source's `output_prefix` field). -/
structure SuccessBody where
  message : String
  manifest_url : String
  files : List String
  output_prefix_uri : String
deriving Repr, DecidableEq

inductive Body where
  | text (s : String)
  | json (b : SuccessBody)
deriving Repr, DecidableEq

structure Response where
  statusCode : Nat
  body : Body
deriving Repr, DecidableEq

/-- One inbound event record, with the fields the handler reads
(`record["s3"]["bucket"]["name"]` and `record["s3"]["object"]["key"]`);
`none` models the key being absent from the JSON payload. -/
structure EventRecord where
  bucketName : Option String
  objectKey : Option String
deriving Repr, DecidableEq

/-- The inbound event; `records = none` models a payload without the
`"Records"` key. -/
structure Event where
  records : Option (List EventRecord)
deriving Repr, DecidableEq

/-- Lines 113–115 of the handler: `event["Records"][0]`, then the bucket
name and the (still URL-encoded) object key.  Each failing lookup raises;
the error strings are `str()` of the corresponding Python exceptions
(`KeyError` renders as the quoted key, `IndexError` as its message). -/
def parseRecord (e : Event) : Except String (String × String) :=
  match e.records with
  | none => Except.error "\x27Records\x27"
  | some [] => Except.error "list index out of range"
  | some (r :: _) =>
    match r.bucketName with
    | none => Except.error "\x27name\x27"
    | some b =>
      match r.objectKey with
      | none => Except.error "\x27key\x27"
      | some k => Except.ok (b, k)

/-- The staging input file path `/tmp/{file_id}{ext}`. -/
def stagingInput (file_id ext : String) : String := "/tmp/" ++ file_id ++ ext

/-- The staging output directory `/tmp/{file_id}_dash_output`. -/
def stagingOutDir (file_id : String) : String := "/tmp/" ++ file_id ++ "_dash_output"

/-- Lines 131–135 ("Ensure clean state"): delete the staging input file
and recursively delete the staging output directory when they exist. -/
def cleanSlate (ip od : String) (fs : FS) : FS :=
  let fs := if fileExists ip fs then removeFile ip fs else fs
  if dirExists od fs then removeTree od fs else fs

/-- Lines 175–187 (the `finally` block): best-effort delete of the input
file and recursive delete of the output directory.  (The source logs and
swallows deletion errors; the model's deletions succeed.) -/
def cleanup (ip od : String) (fs : FS) : FS :=
  let fs := if fileExists ip fs then removeFile ip fs else fs
  if dirExists od fs then removeTree od fs else fs

/-- The upload loop of lines 147–155 over the listed child names: derives
each content type from the file's extension and uploads to the fixed
destination bucket under `{dashPfx}/{name}`; the first failure aborts the
loop with that error. -/
def uploadLoop (dstBucket dashPfx od : String) (eff : Effects) :
    List String → Except String Unit × List Ev
  | [] => (Except.ok (), [])
  | name :: rest =>
    let contentType :=
      if pathSuffix name == ".mpd" then "application/dash+xml" else "video/mp4"
    match eff.upload name with
    | Outcome.err m => (Except.error m, [])
    | Outcome.ok =>
      let r := uploadLoop dstBucket dashPfx od eff rest
      (r.1, Ev.uploadCall (od ++ "/" ++ name) dstBucket (dashPfx ++ "/" ++ name)
              contentType :: r.2)

/-- The destination bucket hardcoded at line 144. -/
def output_bucket : String := "manifestdatabucket"

/-- The body of the inner `try` (lines 137–170): download, transcode,
upload, and construction of the success payload.  Errors propagate to the
caller (which runs `cleanup` and converts them), mirroring the
`except ... raise` of the source. -/
def innerTry (bucket key file_id ip od : String) (fs : FS) (eff : Effects) :
    Except String SuccessBody × FS × List Ev :=
  let dashPfx := "dash/" ++ file_id
  match eff.download with
  | Outcome.err m => (Except.error m, fs, [Ev.downloadCall bucket key ip])
  | Outcome.ok =>
    let fs := createFile ip fs
    let tr0 := [Ev.downloadCall bucket key ip]
    match run_ffmpeg_dash ip od RESOLUTIONS fs eff with
    | (Except.error m, fs, tr1) => (Except.error m, fs, tr0 ++ tr1)
    | (Except.ok output_files, fs, tr1) =>
      match uploadLoop output_bucket dashPfx od eff (listDirChildren od fs) with
      | (Except.error m, tr2) => (Except.error m, fs, tr0 ++ tr1 ++ tr2)
      | (Except.ok _, tr2) =>
        let manifest_url :=
          "https://" ++ bucket ++ ".s3.amazonaws.com/" ++ dashPfx ++ "/manifest.mpd"
        (Except.ok
          { message := "DASH conversion successful",
            manifest_url := manifest_url,
            files := output_files,
            output_prefix_uri := "s3://" ++ bucket ++ "/" ++ dashPfx ++ "/" },
         fs, tr0 ++ tr1 ++ tr2)

/-- Lines 124–187: staging-path computation, clean slate, the inner try,
and the `finally` cleanup that always runs before the result (success or
error) reaches the outer boundary. -/
def stagedRun (bucket key file_id ext : String) (fs : FS) (eff : Effects) :
    Except String SuccessBody × FS × List Ev :=
  let ip := stagingInput file_id ext
  let od := stagingOutDir file_id
  let fs := cleanSlate ip od fs
  let r := innerTry bucket key file_id ip od fs eff
  (r.1, cleanup ip od r.2.1, r.2.2)

/-- Models `lambda_handler(event, context)` (the `context` argument is unused by
the source).  Returns the response, the final filesystem state, and the
trace of effectful calls made. -/
def lambda_handler (event : Event) (fs : FS) (eff : Effects) :
    Response × FS × List Ev :=
  match parseRecord event with
  | Except.error msg =>
    ({ statusCode := 500, body := Body.text ("Error: " ++ msg) }, fs, [])
  | Except.ok (bucket, rawKey) =>
    let key := unquote_plus rawKey
    let ext := strLower (pathSuffix key)
    if ALLOWED_EXTENSIONS.contains ext then
      let file_id := pathStem key
      match stagedRun bucket key file_id ext fs eff with
      | (Except.ok body, fs1, tr) =>
        ({ statusCode := 200, body := Body.json body }, fs1, tr)
      | (Except.error msg, fs1, tr) =>
        ({ statusCode := 500, body := Body.text ("Error: " ++ msg) }, fs1, tr)
    else
      ({ statusCode := 400,
         body := Body.text ("Unsupported format: " ++ ext ++ ". Allowed: " ++ allowedSetRepr) },
       fs, [])

/-- The staging paths of a key, removed unconditionally: the "clean
filesystem state" a crashed run would have left behind had it not crashed
(or equivalently, had its cleanup run). -/
def clearStaging (ip od : String) (fs : FS) : FS :=
  removeTree od (removeFile ip fs)

/-- A filesystem is orphan-free below `od` when anything lying under
`od ++ "/"` implies the directory `od` itself exists — true of every state
an actual POSIX filesystem can be in (a file needs its parent directory). -/
def noOrphans (od : String) (fs : FS) : Bool :=
  (fs.files.all (fun f => !(strIsPfx (od ++ "/") f) || fs.dirs.contains od))
  && (fs.dirs.all (fun x => !(strIsPfx (od ++ "/") x) || fs.dirs.contains od))

lemma removeFile_of_not_exists (p : String) (fs : FS) (h : fileExists p fs = false) :
    removeFile p fs = fs := by
  cases fs with
  | mk files dirs =>
    simp only [removeFile, FS.mk.injEq, and_true]
    apply List.filter_eq_self.mpr
    intro a ha
    simp only [fileExists, List.contains_eq_any_beq, List.any_eq_false] at h
    have hne : ¬ p = a := by simpa using h a ha
    simp only [bne_iff_ne, ne_eq]
    exact fun hh => hne hh.symm

lemma fileExists_removeFile (p : String) (fs : FS) :
    fileExists p (removeFile p fs) = false := by
  simp [fileExists, removeFile, List.contains_eq_any_beq, List.any_eq_false, List.mem_filter]

lemma fileExists_removeTree_of_false (p d : String) (fs : FS)
    (h : fileExists p fs = false) : fileExists p (removeTree d fs) = false := by
  simp only [fileExists, removeTree, List.contains_eq_any_beq, List.any_eq_false] at h ⊢
  intro a ha
  exact h a (List.mem_of_mem_filter ha)

lemma dirExists_removeTree (d : String) (fs : FS) :
    dirExists d (removeTree d fs) = false := by
  simp [dirExists, removeTree, List.contains_eq_any_beq, List.any_eq_false, List.mem_filter]

lemma removeTree_of_not_exists (d : String) (fs : FS)
    (hd : dirExists d fs = false) (ho : noOrphans d fs = true) :
    removeTree d fs = fs := by
  cases fs with
  | mk files dirs =>
    simp only [noOrphans, Bool.and_eq_true, List.all_eq_true] at ho
    simp only [dirExists, List.contains_eq_any_beq, List.any_eq_false] at hd
    have hcon : dirs.contains d = false := by
      simp only [List.contains_eq_any_beq, List.any_eq_false]
      exact hd
    simp only [removeTree, FS.mk.injEq]
    constructor
    · apply List.filter_eq_self.mpr
      intro a ha
      have := ho.1 a ha
      rw [hcon] at this
      simpa using this
    · apply List.filter_eq_self.mpr
      intro a ha
      have h1 := ho.2 a ha
      rw [hcon] at h1
      have h2 : ¬ a = d := by
        have := hd a ha
        simp only [beq_iff_eq] at this
        exact fun hh => this hh.symm
      simp only [Bool.or_false] at h1
      simp [h1, h2]

lemma noOrphans_removeFile (d p : String) (fs : FS) (h : noOrphans d fs = true) :
    noOrphans d (removeFile p fs) = true := by
  cases fs with
  | mk files dirs =>
    simp only [noOrphans, removeFile, Bool.and_eq_true, List.all_eq_true] at h ⊢
    exact ⟨fun f hf => h.1 f (List.mem_of_mem_filter hf), h.2⟩

/-- The `finally` block always leaves a state in which neither staging
path exists. -/
lemma cleanup_clears (ip od : String) (fs : FS) :
    fileExists ip (cleanup ip od fs) = false ∧ dirExists od (cleanup ip od fs) = false := by
  unfold cleanup
  set fs1 := if fileExists ip fs then removeFile ip fs else fs with hfs1
  have h1 : fileExists ip fs1 = false := by
    rw [hfs1]
    by_cases h : fileExists ip fs = true
    · rw [if_pos h]; exact fileExists_removeFile ip fs
    · rw [if_neg h]; exact Bool.not_eq_true _ ▸ (Bool.eq_false_iff.mpr h)
  by_cases h2 : dirExists od fs1 = true
  · rw [if_pos h2]
    exact ⟨fileExists_removeTree_of_false ip od fs1 h1, dirExists_removeTree od fs1⟩
  · rw [if_neg h2]
    exact ⟨h1, Bool.eq_false_iff.mpr h2⟩

/-- Running the "ensure clean state" step after first clearing the staging
paths reaches exactly the same state as running it directly: leftover
staging state is erased either way. -/
lemma cleanSlate_clearStaging (ip od : String) (fs : FS)
    (ho : noOrphans od fs = true) :
    cleanSlate ip od (clearStaging ip od fs) = cleanSlate ip od fs := by
  have hfileL : fileExists ip (clearStaging ip od fs) = false :=
    fileExists_removeTree_of_false ip od _ (fileExists_removeFile ip fs)
  have hdirL : dirExists od (clearStaging ip od fs) = false :=
    dirExists_removeTree od _
  have hL : cleanSlate ip od (clearStaging ip od fs) = clearStaging ip od fs := by
    unfold cleanSlate
    rw [hfileL]
    simp only [Bool.false_eq_true, if_false]
    rw [hdirL]
    simp
  rw [hL]
  unfold cleanSlate clearStaging
  have hstep1 : (if fileExists ip fs then removeFile ip fs else fs) = removeFile ip fs := by
    by_cases h : fileExists ip fs = true
    · rw [if_pos h]
    · rw [if_neg h, removeFile_of_not_exists ip fs (Bool.eq_false_iff.mpr h)]
  rw [hstep1]
  by_cases h2 : dirExists od (removeFile ip fs) = true
  · rw [if_pos h2]
  · rw [if_neg h2,
        removeTree_of_not_exists od (removeFile ip fs) (Bool.eq_false_iff.mpr h2)
          (noOrphans_removeFile od ip fs ho)]

/-- Recognizes a video stream label `[v…]` by its first two characters. -/
def isVMapLabel (s : String) : Bool := s.data.take 2 == ['[', 'v']

/-- Recognizes an audio stream label `[a…]` by its first two characters. -/
def isAMapLabel (s : String) : Bool := s.data.take 2 == ['[', 'a']

lemma isVMapLabel_vLabel (i : Nat) : isVMapLabel (vLabel i) = true := rfl

lemma isAMapLabel_aLabel (i : Nat) : isAMapLabel (aLabel i) = true := rfl

lemma isVMapLabel_aLabel (i : Nat) : isVMapLabel (aLabel i) = false := rfl

lemma isAMapLabel_vLabel (i : Nat) : isAMapLabel (vLabel i) = false := rfl

lemma streamMappingsAux_eq_flatMap (rs : List (Nat × Nat)) : ∀ k,
    streamMappingsAux k rs = (List.enumFrom k rs).flatMap
      (fun p => ["-map", vLabel p.1, "-map", aLabel p.1]) := by
  induction rs with
  | nil => intro k; rfl
  | cons a rest ih =>
    intro k
    simp [streamMappingsAux, List.enumFrom_cons, List.flatMap_cons, ih (k + 1)]

lemma dashFiltersAux_eq_flatMap (rs : List (Nat × Nat)) : ∀ k,
    dashFiltersAux k rs = (List.enumFrom k rs).flatMap
      (fun p => [vFilterStr p.1 p.2.1 p.2.2, aFilterStr p.1]) := by
  induction rs with
  | nil => intro k; rfl
  | cons a rest ih =>
    intro k
    cases a with
    | mk w h =>
      simp [dashFiltersAux, List.enumFrom_cons, List.flatMap_cons, ih (k + 1)]

lemma outputParamsAux_eq_flatMap (rs : List (Nat × Nat)) : ∀ k,
    outputParamsAux k rs = (List.enumFrom k rs).flatMap
      (fun p => outputParamsFor p.1 p.2.1 p.2.2) := by
  induction rs with
  | nil => intro k; rfl
  | cons a rest ih =>
    intro k
    cases a with
    | mk w h =>
      simp [outputParamsAux, List.enumFrom_cons, List.flatMap_cons, ih (k + 1)]

lemma dashFiltersAux_length (rs : List (Nat × Nat)) : ∀ k,
    (dashFiltersAux k rs).length = 2 * rs.length := by
  induction rs with
  | nil => intro k; rfl
  | cons a rest ih =>
    intro k
    cases a with
    | mk w h =>
      simp only [dashFiltersAux, List.length_cons, ih (k + 1), List.length]
      omega

lemma streamMappingsAux_countV (rs : List (Nat × Nat)) : ∀ k,
    ((streamMappingsAux k rs).filter isVMapLabel).length = rs.length := by
  induction rs with
  | nil => intro k; rfl
  | cons a rest ih =>
    intro k
    simp [streamMappingsAux, List.filter_cons, isVMapLabel_vLabel, isVMapLabel_aLabel,
      ih (k + 1), show isVMapLabel "-map" = false from rfl]

lemma streamMappingsAux_countA (rs : List (Nat × Nat)) : ∀ k,
    ((streamMappingsAux k rs).filter isAMapLabel).length = rs.length := by
  induction rs with
  | nil => intro k; rfl
  | cons a rest ih =>
    intro k
    simp [streamMappingsAux, List.filter_cons, isAMapLabel_aLabel, isAMapLabel_vLabel,
      ih (k + 1), show isAMapLabel "-map" = false from rfl]

/-- C6: for a resolution list of length N ≥ 1, the constructed ffmpeg
command has exactly N video-stream map entries `[v0]…[v(N-1)]` and exactly
N audio-stream map entries `[a0]…[a(N-1)]`, and its `-filter_complex`
argument is the `;`-join of exactly 2N filter expressions — per index one
video filter followed by one audio filter. -/
theorem ffmpegCmd_maps_and_filters (ip od : String) (rs : List (Nat × Nat))
    (hN : 1 ≤ rs.length) :
    ffmpegCmd ip od rs =
      [ffmpeg_path, "-i", ip, "-y",
       "-filter_complex", String.intercalate ";" (dashFilters rs)]
      ++ (streamMappings rs ++ dashFixedFlags ++ outputParams rs
          ++ [od ++ "/manifest.mpd"])
  ∧ dashFilters rs = rs.enum.flatMap
      (fun p => [vFilterStr p.1 p.2.1 p.2.2, aFilterStr p.1])
  ∧ (dashFilters rs).length = 2 * rs.length
  ∧ streamMappings rs = rs.enum.flatMap
      (fun p => ["-map", vLabel p.1, "-map", aLabel p.1])
  ∧ ((streamMappings rs).filter isVMapLabel).length = rs.length
  ∧ ((streamMappings rs).filter isAMapLabel).length = rs.length := by
  refine ⟨by simp [ffmpegCmd, List.append_assoc], ?_, ?_, ?_, ?_, ?_⟩
  · exact dashFiltersAux_eq_flatMap rs 0
  · exact dashFiltersAux_length rs 0
  · exact streamMappingsAux_eq_flatMap rs 0
  · exact streamMappingsAux_countV rs 0
  · exact streamMappingsAux_countA rs 0

/-- Witness for C6 at the one-element resolution list `[(1280, 720)]`. -/
theorem ffmpegCmd_maps_and_filters_witness :
    ffmpegCmd "/tmp/a.mp4" "/tmp/a_dash_output" [(1280, 720)] =
      [ffmpeg_path, "-i", "/tmp/a.mp4", "-y",
       "-filter_complex", String.intercalate ";" (dashFilters [(1280, 720)])]
      ++ (streamMappings [(1280, 720)] ++ dashFixedFlags ++ outputParams [(1280, 720)]
          ++ ["/tmp/a_dash_output" ++ "/manifest.mpd"])
  ∧ dashFilters [(1280, 720)] = (List.enum [(1280, 720)]).flatMap
      (fun p => [vFilterStr p.1 p.2.1 p.2.2, aFilterStr p.1])
  ∧ (dashFilters [(1280, 720)]).length = 2 * List.length [(1280, 720)]
  ∧ streamMappings [(1280, 720)] = (List.enum [(1280, 720)]).flatMap
      (fun p => ["-map", vLabel p.1, "-map", aLabel p.1])
  ∧ ((streamMappings [(1280, 720)]).filter isVMapLabel).length = List.length [(1280, 720)]
  ∧ ((streamMappings [(1280, 720)]).filter isAMapLabel).length = List.length [(1280, 720)] :=
  ffmpegCmd_maps_and_filters "/tmp/a.mp4" "/tmp/a_dash_output" [(1280, 720)] (by decide)

/-- C7: for the empty resolution list, `run_ffmpeg_dash` fails with the
configuration error before any external process is spawned — its result is
the `ValueError` text and its trace holds no subprocess invocation (the
only state change is the directory creation that precedes the check). -/
theorem run_ffmpeg_dash_empty_fails_before_spawn (ip od : String) (fs : FS)
    (eff : Effects) :
    run_ffmpeg_dash ip od [] fs eff =
      (Except.error "No valid FFmpeg filter chains or stream mappings generated.",
       mkdirP od fs, []) := rfl

/-- C8: per resolution index i with pair (w, h), the command sets video
codec libx264, crf 23, preset "fast", video bitrate "{w}k", max rate
"{w}k", buffer size "{2w}k", audio codec aac, and the audio bitrate from
the height table with "64k" fallback. -/
theorem encoding_params_per_resolution (rs : List (Nat × Nat)) :
    outputParams rs = rs.enum.flatMap (fun p => outputParamsFor p.1 p.2.1 p.2.2)
  ∧ (∀ i w h, outputParamsFor i w h =
      ["-c:v:" ++ toString i, "libx264",
       "-crf:" ++ toString i, "23",
       "-preset:" ++ toString i, "fast",
       "-b:v:" ++ toString i, toString w ++ "k",
       "-maxrate:" ++ toString i, toString w ++ "k",
       "-bufsize:" ++ toString i, toString (2 * w) ++ "k",
       "-c:a:" ++ toString i, "aac",
       "-b:a:" ++ toString i, audioBitrateFor h])
  ∧ audioBitrateFor 720 = "128k"
  ∧ audioBitrateFor 480 = "96k"
  ∧ audioBitrateFor 360 = "64k"
  ∧ audioBitrateFor 240 = "48k"
  ∧ (∀ h, h ≠ 720 → h ≠ 480 → h ≠ 360 → h ≠ 240 → audioBitrateFor h = "64k") := by
  refine ⟨outputParamsAux_eq_flatMap rs 0, ?_, rfl, rfl, rfl, rfl, ?_⟩
  · intro i w h
    simp [outputParamsFor, Nat.mul_comm]
  · intro h h1 h2 h3 h4
    have e1 : (h == 720) = false := beq_eq_false_iff_ne.mpr h1
    have e2 : (h == 480) = false := beq_eq_false_iff_ne.mpr h2
    have e3 : (h == 360) = false := beq_eq_false_iff_ne.mpr h3
    have e4 : (h == 240) = false := beq_eq_false_iff_ne.mpr h4
    simp [audioBitrateFor, AUDIO_BITRATES, List.lookup, e1, e2, e3, e4]

/-- Witness for C8: the table rows and the fallback at height 1080. -/
theorem encoding_params_per_resolution_witness : audioBitrateFor 1080 = "64k" :=
  (encoding_params_per_resolution []).2.2.2.2.2.2 1080 (by decide) (by decide)
    (by decide) (by decide)

/-- Concrete fixtures used by witnesses and counterexamples. -/
def effOk : Effects :=
  { download := Outcome.ok,
    transcode := { returncode := 0, stderr := "", produced := ["manifest.mpd", "init_0.m4s"] },
    upload := fun _ => Outcome.ok }

def evClip : Event :=
  { records := some [{ bucketName := some "srcbucket", objectKey := some "videos/clip.mp4" }] }

def fsEmpty : FS := { files := [], dirs := [] }

/-- C5: an event whose URL-decoded, lower-cased key extension is not in
the allowed set gets the 400 response naming the format and the allowed
set, with the filesystem untouched and no effectful call made (the trace
is empty, so in particular no download happens). -/
theorem unsupported_extension_400 (e : Event) (fs : FS) (eff : Effects) (b k : String)
    (hp : parseRecord e = Except.ok (b, k))
    (hext : ALLOWED_EXTENSIONS.contains (strLower (pathSuffix (unquote_plus k))) = false) :
    lambda_handler e fs eff =
      ({ statusCode := 400,
         body := Body.text ("Unsupported format: " ++ strLower (pathSuffix (unquote_plus k))
           ++ ". Allowed: " ++ allowedSetRepr) }, fs, []) := by
  simp only [lambda_handler, hp]
  rw [hext]
  simp

/-- Witness for C5: a `.txt` key is rejected without side effects. -/
theorem unsupported_extension_400_witness :
    lambda_handler { records := some [{ bucketName := some "b", objectKey := some "doc.txt" }] }
        fsEmpty effOk =
      ({ statusCode := 400,
         body := Body.text ("Unsupported format: "
           ++ strLower (pathSuffix (unquote_plus "doc.txt"))
           ++ ". Allowed: " ++ allowedSetRepr) }, fsEmpty, []) :=
  unsupported_extension_400 _ fsEmpty effOk "b" "doc.txt" rfl (by decide)

/-- An event is malformed at the public interface when the `Records` key
is missing, the records list is empty, or the first record lacks the
bucket-name or object-key field. -/
def malformedEvent (e : Event) : Prop :=
  e.records = none ∨ e.records = some [] ∨
  (∃ r rest, e.records = some (r :: rest) ∧
     (r.bucketName = none ∨ (∃ b, r.bucketName = some b ∧ r.objectKey = none)))

/-- C10: a malformed event does not raise and does not get the 400
validation response: the lookup error is caught at the top-level boundary
and becomes a 500 response whose body carries the error message; nothing
else happens (state and trace untouched). -/
theorem malformed_event_500 (e : Event) (fs : FS) (eff : Effects)
    (hm : malformedEvent e) :
    ∃ msg, parseRecord e = Except.error msg ∧
      lambda_handler e fs eff =
        ({ statusCode := 500, body := Body.text ("Error: " ++ msg) }, fs, []) ∧
      (lambda_handler e fs eff).1.statusCode ≠ 400 := by
  have hperr : ∃ msg, parseRecord e = Except.error msg := by
    rcases hm with h | h | ⟨r, rest, hr, hf⟩
    · exact ⟨"\x27Records\x27", by simp [parseRecord, h]⟩
    · exact ⟨"list index out of range", by simp [parseRecord, h]⟩
    · rcases hf with hb | ⟨b, hb, hk⟩
      · exact ⟨"\x27name\x27", by simp [parseRecord, hr, hb]⟩
      · exact ⟨"\x27key\x27", by simp [parseRecord, hr, hb, hk]⟩
  rcases hperr with ⟨msg, hmsg⟩
  refine ⟨msg, hmsg, by simp [lambda_handler, hmsg], by simp [lambda_handler, hmsg]⟩

/-- Witness for C10: the event without a `Records` key. -/
theorem malformed_event_500_witness :
    ∃ msg, parseRecord { records := none } = Except.error msg ∧
      lambda_handler { records := none } fsEmpty effOk =
        ({ statusCode := 500, body := Body.text ("Error: " ++ msg) }, fsEmpty, []) ∧
      (lambda_handler { records := none } fsEmpty effOk).1.statusCode ≠ 400 :=
  malformed_event_500 { records := none } fsEmpty effOk (Or.inl rfl)

lemma merge_err_ffmpeg (s : String) :
    "Error: " ++ ("FFmpeg failed with error: " ++ s) =
      "Error: FFmpeg failed with error: " ++ s := by
  rw [← String.append_assoc]; rfl

lemma merge_host_dash (t : String) :
    ".s3.amazonaws.com/" ++ ("dash/" ++ t) = ".s3.amazonaws.com/dash/" ++ t := by
  rw [← String.append_assoc]; rfl

lemma merge_slash_dash (t : String) : "/" ++ ("dash/" ++ t) = "/dash/" ++ t := by
  rw [← String.append_assoc]; rfl

/-- On a successful run, the success body is exactly the record built at
lines 162–169: fixed message, manifest URL and `output_prefix` URI built
from the source bucket. -/
lemma stagedRun_ok_shape (bucket key file_id ext : String) (fs : FS) (eff : Effects)
    (sb : SuccessBody)
    (h : (stagedRun bucket key file_id ext fs eff).1 = Except.ok sb) :
    sb.message = "DASH conversion successful"
  ∧ sb.manifest_url =
      "https://" ++ bucket ++ ".s3.amazonaws.com/dash/" ++ file_id ++ "/manifest.mpd"
  ∧ sb.output_prefix_uri = "s3://" ++ bucket ++ "/dash/" ++ file_id ++ "/" := by
  simp only [stagedRun, innerTry] at h
  split at h
  · simp at h
  · split at h
    · simp at h
    · split at h
      · simp at h
      · simp only [Except.ok.injEq] at h
        subst h
        refine ⟨rfl, ?_, ?_⟩
        · simp [String.append_assoc, merge_host_dash]
        · simp [String.append_assoc, merge_slash_dash]

/-- When the transcode subprocess exits non-zero (and the download before
it succeeded), the staged run fails with the `RuntimeError` text carrying
the subprocess's stderr. -/
lemma stagedRun_transcode_fail (bucket key file_id ext : String) (fs : FS)
    (eff : Effects) (hd : eff.download = Outcome.ok)
    (ht : eff.transcode.returncode ≠ 0) :
    (stagedRun bucket key file_id ext fs eff).1 =
      Except.error ("FFmpeg failed with error: " ++ eff.transcode.stderr) := by
  simp only [stagedRun, innerTry, run_ffmpeg_dash, hd]
  rw [if_neg (by decide :
    ¬ ((dashFilters RESOLUTIONS).isEmpty || (streamMappings RESOLUTIONS).isEmpty) = true)]
  rw [if_pos ht]

/-- C2: the handler never raises past its boundary — every execution
returns a structured response whose status code is 200, 400 or 500; any
error from the staged phase (download, transcode, upload) becomes a 500
response whose body is the error message prefixed with "Error: "; and in
particular a non-zero transcode exit yields the 500 response whose body
carries the subprocess's stderr verbatim as a suffix. -/
theorem handler_total_and_transcode_stderr :
    (∀ e fs eff, (lambda_handler e fs eff).1.statusCode = 200
      ∨ (lambda_handler e fs eff).1.statusCode = 400
      ∨ (lambda_handler e fs eff).1.statusCode = 500)
  ∧ (∀ e fs eff b k msg, parseRecord e = Except.ok (b, k) →
      ALLOWED_EXTENSIONS.contains (strLower (pathSuffix (unquote_plus k))) = true →
      (stagedRun b (unquote_plus k) (pathStem (unquote_plus k))
        (strLower (pathSuffix (unquote_plus k))) fs eff).1 = Except.error msg →
      (lambda_handler e fs eff).1 =
        { statusCode := 500, body := Body.text ("Error: " ++ msg) })
  ∧ (∀ e fs eff b k, parseRecord e = Except.ok (b, k) →
      ALLOWED_EXTENSIONS.contains (strLower (pathSuffix (unquote_plus k))) = true →
      eff.download = Outcome.ok →
      eff.transcode.returncode ≠ 0 →
      (lambda_handler e fs eff).1 =
        { statusCode := 500,
          body := Body.text
            ("Error: FFmpeg failed with error: " ++ eff.transcode.stderr) }) := by
  have hconv : ∀ e fs eff b k msg, parseRecord e = Except.ok (b, k) →
      ALLOWED_EXTENSIONS.contains (strLower (pathSuffix (unquote_plus k))) = true →
      (stagedRun b (unquote_plus k) (pathStem (unquote_plus k))
        (strLower (pathSuffix (unquote_plus k))) fs eff).1 = Except.error msg →
      (lambda_handler e fs eff).1 =
        { statusCode := 500, body := Body.text ("Error: " ++ msg) } := by
    intro e fs eff b k msg hp hc hsr
    simp only [lambda_handler, hp, hc, if_true]
    split
    · rename_i body fs1 tr heq
      rw [heq] at hsr
      simp at hsr
    · rename_i m fs1 tr heq
      rw [heq] at hsr
      simp only [Except.error.injEq] at hsr
      simp [hsr]
  refine ⟨?_, hconv, ?_⟩
  · intro e fs eff
    rcases hp : parseRecord e with m | ⟨b, k⟩
    · simp [lambda_handler, hp]
    · by_cases hc : ALLOWED_EXTENSIONS.contains
        (strLower (pathSuffix (unquote_plus k))) = true
      · simp only [lambda_handler, hp, hc, if_true]
        split
        · simp
        · simp
      · have hc2 : strLower (pathSuffix (unquote_plus k)) ∉ ALLOWED_EXTENSIONS := by
          simpa using hc
        simp [lambda_handler, hp, hc2]
  · intro e fs eff b k hp hc hd ht
    have hsf := stagedRun_transcode_fail b (unquote_plus k) (pathStem (unquote_plus k))
      (strLower (pathSuffix (unquote_plus k))) fs eff hd ht
    have := hconv e fs eff b k ("FFmpeg failed with error: " ++ eff.transcode.stderr)
      hp hc hsf
    rw [this, merge_err_ffmpeg]

/-- Witness for C2: a transcode exiting 1 with stderr "Invalid data found"
yields the 500 response carrying that text. -/
theorem handler_total_and_transcode_stderr_witness :
    (lambda_handler evClip fsEmpty
      { download := Outcome.ok,
        transcode := { returncode := 1, stderr := "Invalid data found", produced := [] },
        upload := fun _ => Outcome.ok }).1 =
      { statusCode := 500,
        body := Body.text ("Error: FFmpeg failed with error: " ++
          ({ download := Outcome.ok,
             transcode := { returncode := 1, stderr := "Invalid data found", produced := [] },
             upload := fun _ => Outcome.ok } : Effects).transcode.stderr) } :=
  handler_total_and_transcode_stderr.2.2 evClip fsEmpty _ "srcbucket" "videos/clip.mp4"
    rfl rfl rfl (by decide)

/-- The trace of the one `run_ffmpeg_dash` call the handler makes (with the
nonempty fixed catalog) is exactly the one subprocess invocation. -/
lemma run_ffmpeg_dash_trace (ip od : String) (fs : FS) (eff : Effects) :
    (run_ffmpeg_dash ip od RESOLUTIONS fs eff).2.2 =
      [Ev.subprocessCall (ffmpegCmd ip od RESOLUTIONS)] := by
  simp only [run_ffmpeg_dash]
  rw [if_neg (by decide :
    ¬ ((dashFilters RESOLUTIONS).isEmpty || (streamMappings RESOLUTIONS).isEmpty) = true)]
  by_cases ht : eff.transcode.returncode = 0
  · rw [if_neg (by simpa using ht)]
  · rw [if_pos ht]

/-- Every upload event the upload loop records targets the destination
bucket it was given, under the given prefix. -/
lemma uploadLoop_targets (dstBucket dashPfx od : String) (eff : Effects)
    (names : List String) :
    ∀ ev ∈ (uploadLoop dstBucket dashPfx od eff names).2, ∀ s dB dK ct,
      ev = Ev.uploadCall s dB dK ct →
      dB = dstBucket ∧ ∃ n, dK = dashPfx ++ "/" ++ n := by
  induction names with
  | nil =>
    intro ev hev
    simp [uploadLoop] at hev
  | cons name rest ih =>
    intro ev hev s dB dK ct hevq
    simp only [uploadLoop] at hev
    cases hu : eff.upload name with
    | err m =>
      rw [hu] at hev
      simp at hev
    | ok =>
      rw [hu] at hev
      simp only [List.mem_cons] at hev
      rcases hev with hev | hev
      · rw [hev] at hevq
        injection hevq with h1 h2 h3 h4
        exact ⟨h2.symm, name, h3.symm⟩
      · exact ih ev hev s dB dK ct hevq

/-- Every upload event in a staged run's trace targets the fixed
destination bucket under the key prefix `dash/{file_id}/`. -/
lemma stagedRun_upload_targets (bucket key file_id ext : String) (fs : FS)
    (eff : Effects) :
    ∀ ev ∈ (stagedRun bucket key file_id ext fs eff).2.2, ∀ s dB dK ct,
      ev = Ev.uploadCall s dB dK ct →
      dB = output_bucket ∧ ∃ n, dK = ("dash/" ++ file_id) ++ "/" ++ n := by
  intro ev hev s dB dK ct hevq
  subst hevq
  cases hd : eff.download with
  | err m =>
    simp only [stagedRun, innerTry, hd] at hev
    simp at hev
  | ok =>
    rcases hr : run_ffmpeg_dash (stagingInput file_id ext) (stagingOutDir file_id)
        RESOLUTIONS (createFile (stagingInput file_id ext)
          (cleanSlate (stagingInput file_id ext) (stagingOutDir file_id) fs)) eff
      with ⟨res, fs2, tr1⟩
    have htr1 : tr1 = [Ev.subprocessCall
        (ffmpegCmd (stagingInput file_id ext) (stagingOutDir file_id) RESOLUTIONS)] := by
      have h2 := congrArg (fun t => t.2.2) hr
      simp only at h2
      rw [run_ffmpeg_dash_trace] at h2
      exact h2.symm
    simp only [stagedRun, innerTry, hd, hr] at hev
    cases res with
    | error m =>
      simp only at hev
      rw [htr1] at hev
      simp at hev
    | ok output_files =>
      rcases hu : uploadLoop output_bucket ("dash/" ++ file_id) (stagingOutDir file_id)
          eff (listDirChildren (stagingOutDir file_id) fs2) with ⟨ur, tr2⟩
      simp only [hu] at hev
      have hmem : Ev.uploadCall s dB dK ct ∈ tr2 := by
        cases ur with
        | error m =>
          simp only at hev
          rw [htr1] at hev
          simpa using hev
        | ok u =>
          simp only at hev
          rw [htr1] at hev
          simpa using hev
      have hmem2 : Ev.uploadCall s dB dK ct ∈
          (uploadLoop output_bucket ("dash/" ++ file_id) (stagingOutDir file_id)
            eff (listDirChildren (stagingOutDir file_id) fs2)).2 := by
        rw [hu]
        exact hmem
      exact uploadLoop_targets output_bucket ("dash/" ++ file_id) (stagingOutDir file_id)
        eff (listDirChildren (stagingOutDir file_id) fs2) _ hmem2 s dB dK ct rfl

/-- C4: on every successful invocation, the manifest URL of the 200 body
is `https://{source_bucket}.s3.amazonaws.com/dash/{stem}/manifest.mpd`,
built from the bucket name of the event record. -/
theorem manifest_url_from_source_bucket (e : Event) (fs : FS) (eff : Effects)
    (b k : String) (hp : parseRecord e = Except.ok (b, k))
    (h200 : (lambda_handler e fs eff).1.statusCode = 200) :
    ∃ sb, (lambda_handler e fs eff).1.body = Body.json sb ∧
      sb.manifest_url = "https://" ++ b ++ ".s3.amazonaws.com/dash/"
        ++ pathStem (unquote_plus k) ++ "/manifest.mpd" := by
  by_cases hc : ALLOWED_EXTENSIONS.contains
      (strLower (pathSuffix (unquote_plus k))) = true
  · simp only [lambda_handler, hp, hc, if_true] at h200 ⊢
    rcases hr : stagedRun b (unquote_plus k) (pathStem (unquote_plus k))
        (strLower (pathSuffix (unquote_plus k))) fs eff with ⟨res, fs1, tr⟩
    rw [hr] at h200
    cases res with
    | error m => exact absurd (show (500 : Nat) = 200 from h200) (by decide)
    | ok sb0 =>
      refine ⟨sb0, rfl, ?_⟩
      have hok : (stagedRun b (unquote_plus k) (pathStem (unquote_plus k))
          (strLower (pathSuffix (unquote_plus k))) fs eff).1 = Except.ok sb0 := by
        rw [hr]
      exact (stagedRun_ok_shape b (unquote_plus k) (pathStem (unquote_plus k))
        (strLower (pathSuffix (unquote_plus k))) fs eff sb0 hok).2.1
  · have hc2 : strLower (pathSuffix (unquote_plus k)) ∉ ALLOWED_EXTENSIONS := by
      simpa using hc
    simp [lambda_handler, hp, hc2] at h200

/-- Witness for C4 at a concrete successful invocation. -/
theorem manifest_url_from_source_bucket_witness :
    ∃ sb, (lambda_handler evClip fsEmpty effOk).1.body = Body.json sb ∧
      sb.manifest_url = "https://" ++ "srcbucket" ++ ".s3.amazonaws.com/dash/"
        ++ pathStem (unquote_plus "videos/clip.mp4") ++ "/manifest.mpd" :=
  manifest_url_from_source_bucket evClip fsEmpty effOk "srcbucket" "videos/clip.mp4"
    rfl rfl

/-- C3 counterexample: a concrete successful invocation with source bucket
`srcbucket`.  The 200 body's `output_prefix` is `s3://srcbucket/dash/clip/`
— an URI under the *source* bucket — which differs from the URI of the
prefix under the fixed destination bucket (`manifestdatabucket`) that the
artifacts were actually uploaded to, as the recorded upload calls show. -/
theorem output_uri_counterexample :
    (lambda_handler evClip fsEmpty effOk).1 =
      { statusCode := 200,
        body := Body.json
          { message := "DASH conversion successful",
            manifest_url := "https://srcbucket.s3.amazonaws.com/dash/clip/manifest.mpd",
            files := ["manifest.mpd", "init_0.m4s"],
            output_prefix_uri := "s3://srcbucket/dash/clip/" } }
  ∧ "s3://srcbucket/dash/clip/" ≠ "s3://" ++ output_bucket ++ "/dash/clip/"
  ∧ Ev.uploadCall "/tmp/clip_dash_output/manifest.mpd" output_bucket
      "dash/clip/manifest.mpd" "application/dash+xml"
      ∈ (lambda_handler evClip fsEmpty effOk).2.2
  ∧ Ev.uploadCall "/tmp/clip_dash_output/init_0.m4s" output_bucket
      "dash/clip/init_0.m4s" "video/mp4"
      ∈ (lambda_handler evClip fsEmpty effOk).2.2 :=
  ⟨rfl, by decide, by decide, by decide⟩

/-- C3 as amended: on every successful invocation the 200 body's
`output_prefix` is `s3://{source_bucket}/dash/{stem}/` — built from the
source bucket of the event record — while every upload the invocation
performed targeted the fixed destination bucket under `dash/{stem}/`. -/
theorem output_uri_source_bucket_uploads_destination (e : Event) (fs : FS)
    (eff : Effects) (b k : String) (hp : parseRecord e = Except.ok (b, k))
    (h200 : (lambda_handler e fs eff).1.statusCode = 200) :
    (∃ sb, (lambda_handler e fs eff).1.body = Body.json sb ∧
      sb.output_prefix_uri = "s3://" ++ b ++ "/dash/"
        ++ pathStem (unquote_plus k) ++ "/")
  ∧ (∀ ev ∈ (lambda_handler e fs eff).2.2, ∀ s dB dK ct,
      ev = Ev.uploadCall s dB dK ct →
      dB = output_bucket ∧
        ∃ n, dK = ("dash/" ++ pathStem (unquote_plus k)) ++ "/" ++ n) := by
  by_cases hc : ALLOWED_EXTENSIONS.contains
      (strLower (pathSuffix (unquote_plus k))) = true
  · simp only [lambda_handler, hp, hc, if_true] at h200 ⊢
    rcases hr : stagedRun b (unquote_plus k) (pathStem (unquote_plus k))
        (strLower (pathSuffix (unquote_plus k))) fs eff with ⟨res, fs1, tr⟩
    have htr : ∀ ev ∈ tr, ∀ s dB dK ct,
        ev = Ev.uploadCall s dB dK ct →
        dB = output_bucket ∧
          ∃ n, dK = ("dash/" ++ pathStem (unquote_plus k)) ++ "/" ++ n := by
      intro ev hev
      apply stagedRun_upload_targets b (unquote_plus k) (pathStem (unquote_plus k))
        (strLower (pathSuffix (unquote_plus k))) fs eff ev
      rw [hr]
      exact hev
    rw [hr] at h200
    cases res with
    | error m => exact absurd (show (500 : Nat) = 200 from h200) (by decide)
    | ok sb0 =>
      have hok : (stagedRun b (unquote_plus k) (pathStem (unquote_plus k))
          (strLower (pathSuffix (unquote_plus k))) fs eff).1 = Except.ok sb0 := by
        rw [hr]
      refine ⟨⟨sb0, rfl, ?_⟩, fun ev hev => htr ev hev⟩
      exact (stagedRun_ok_shape b (unquote_plus k) (pathStem (unquote_plus k))
        (strLower (pathSuffix (unquote_plus k))) fs eff sb0 hok).2.2
  · have hc2 : strLower (pathSuffix (unquote_plus k)) ∉ ALLOWED_EXTENSIONS := by
      simpa using hc
    simp [lambda_handler, hp, hc2] at h200

/-- Witness for the amended C3 at a concrete successful invocation. -/
theorem output_uri_source_bucket_uploads_destination_witness :
    (∃ sb, (lambda_handler evClip fsEmpty effOk).1.body = Body.json sb ∧
      sb.output_prefix_uri = "s3://" ++ "srcbucket" ++ "/dash/"
        ++ pathStem (unquote_plus "videos/clip.mp4") ++ "/")
  ∧ (∀ ev ∈ (lambda_handler evClip fsEmpty effOk).2.2, ∀ s dB dK ct,
      ev = Ev.uploadCall s dB dK ct →
      dB = output_bucket ∧
        ∃ n, dK = ("dash/" ++ pathStem (unquote_plus "videos/clip.mp4")) ++ "/" ++ n) :=
  output_uri_source_bucket_uploads_destination evClip fsEmpty effOk "srcbucket"
    "videos/clip.mp4" rfl rfl

/-- C1 counterexample: the cleanup invariant does not cover the 400 path.
A crashed earlier run of `clip.mp4` can leave `/tmp/clip_dash_output`
behind; invoking the handler on key `clip.txt` (same stem, disallowed
extension) returns 400 before the clean-state and cleanup code is ever
reached, and the staging output directory for that stem still exists after
the handler returns. -/
theorem cleanup_invariant_counterexample :
    (lambda_handler
        { records := some [{ bucketName := some "b", objectKey := some "clip.txt" }] }
        { files := [], dirs := ["/tmp/clip_dash_output"] } effOk).1.statusCode = 400
  ∧ dirExists (stagingOutDir (pathStem (unquote_plus "clip.txt")))
      (lambda_handler
        { records := some [{ bucketName := some "b", objectKey := some "clip.txt" }] }
        { files := [], dirs := ["/tmp/clip_dash_output"] } effOk).2.1 = true :=
  ⟨rfl, rfl⟩

/-- C1 as amended: on every invocation whose event parses and whose
extension passes validation (so on every path that can stage anything —
these end in the 200 or 500 response), after the handler returns neither
the staging input file nor the staging output directory exists.  On the
400 path nothing is staged and nothing is cleaned, so a pre-existing
staging path survives. -/
theorem staging_paths_cleared (e : Event) (fs : FS) (eff : Effects) (b k : String)
    (hp : parseRecord e = Except.ok (b, k))
    (hc : ALLOWED_EXTENSIONS.contains (strLower (pathSuffix (unquote_plus k))) = true) :
    fileExists (stagingInput (pathStem (unquote_plus k))
        (strLower (pathSuffix (unquote_plus k)))) (lambda_handler e fs eff).2.1 = false
  ∧ dirExists (stagingOutDir (pathStem (unquote_plus k)))
      (lambda_handler e fs eff).2.1 = false := by
  simp only [lambda_handler, hp, hc, if_true]
  rcases hr : stagedRun b (unquote_plus k) (pathStem (unquote_plus k))
      (strLower (pathSuffix (unquote_plus k))) fs eff with ⟨res, fs1, tr⟩
  have hfs1 : fs1 = cleanup (stagingInput (pathStem (unquote_plus k))
      (strLower (pathSuffix (unquote_plus k)))) (stagingOutDir (pathStem (unquote_plus k)))
      (innerTry b (unquote_plus k) (pathStem (unquote_plus k))
        (stagingInput (pathStem (unquote_plus k)) (strLower (pathSuffix (unquote_plus k))))
        (stagingOutDir (pathStem (unquote_plus k)))
        (cleanSlate (stagingInput (pathStem (unquote_plus k))
          (strLower (pathSuffix (unquote_plus k))))
          (stagingOutDir (pathStem (unquote_plus k))) fs) eff).2.1 := by
    have h2 := congrArg (fun t => t.2.1) hr
    simp only at h2
    rw [← h2]
    rfl
  cases res with
  | error m =>
    subst hfs1
    exact cleanup_clears _ _ _
  | ok sb0 =>
    subst hfs1
    exact cleanup_clears _ _ _

/-- Witness for the amended C1: a concrete successful run ends with both
staging paths absent. -/
theorem staging_paths_cleared_witness :
    fileExists (stagingInput (pathStem (unquote_plus "videos/clip.mp4"))
        (strLower (pathSuffix (unquote_plus "videos/clip.mp4"))))
      (lambda_handler evClip fsEmpty effOk).2.1 = false
  ∧ dirExists (stagingOutDir (pathStem (unquote_plus "videos/clip.mp4")))
      (lambda_handler evClip fsEmpty effOk).2.1 = false :=
  staging_paths_cleared evClip fsEmpty effOk "srcbucket" "videos/clip.mp4" rfl rfl

/-- C9: leftover staging state from a previous crashed run does not change
the handler's behavior.  For every validated key, running the handler on a
filesystem with the staging input file and/or staging output directory
pre-populated produces exactly the same response, final state and trace as
running it on the state with those staging paths cleared, because both are
removed before the download step.  (`noOrphans` only rules out states no
real filesystem can be in: entries under the staging directory while the
directory itself is absent.) -/
theorem leftover_staging_irrelevant (e : Event) (fs : FS) (eff : Effects) (b k : String)
    (hp : parseRecord e = Except.ok (b, k))
    (hc : ALLOWED_EXTENSIONS.contains (strLower (pathSuffix (unquote_plus k))) = true)
    (horph : noOrphans (stagingOutDir (pathStem (unquote_plus k))) fs = true) :
    lambda_handler e fs eff =
      lambda_handler e
        (clearStaging
          (stagingInput (pathStem (unquote_plus k)) (strLower (pathSuffix (unquote_plus k))))
          (stagingOutDir (pathStem (unquote_plus k))) fs) eff := by
  have hs : stagedRun b (unquote_plus k) (pathStem (unquote_plus k))
      (strLower (pathSuffix (unquote_plus k)))
      (clearStaging
        (stagingInput (pathStem (unquote_plus k)) (strLower (pathSuffix (unquote_plus k))))
        (stagingOutDir (pathStem (unquote_plus k))) fs) eff
      = stagedRun b (unquote_plus k) (pathStem (unquote_plus k))
        (strLower (pathSuffix (unquote_plus k))) fs eff := by
    simp only [stagedRun]
    rw [cleanSlate_clearStaging _ _ fs horph]
  simp only [lambda_handler, hp, hc, if_true, hs]

/-- Witness for C9: a filesystem pre-populated with a stale staging file
and directory from a crashed run yields the same result as the cleared
state. -/
theorem leftover_staging_irrelevant_witness :
    lambda_handler evClip
      { files := ["/tmp/clip.mp4", "/tmp/clip_dash_output/stale.m4s"],
        dirs := ["/tmp/clip_dash_output"] } effOk =
    lambda_handler evClip
      (clearStaging
        (stagingInput (pathStem (unquote_plus "videos/clip.mp4"))
          (strLower (pathSuffix (unquote_plus "videos/clip.mp4"))))
        (stagingOutDir (pathStem (unquote_plus "videos/clip.mp4")))
        { files := ["/tmp/clip.mp4", "/tmp/clip_dash_output/stale.m4s"],
          dirs := ["/tmp/clip_dash_output"] }) effOk :=
  leftover_staging_irrelevant evClip
    { files := ["/tmp/clip.mp4", "/tmp/clip_dash_output/stale.m4s"],
      dirs := ["/tmp/clip_dash_output"] } effOk "srcbucket" "videos/clip.mp4"
    rfl rfl (by decide)
